import Mathlib

/-!
Shallow embedding of the books_api harvest-and-transform pipeline:
the crawler in `src/scripts/scraper.py` (class `BooksScraper`) and the
transform stage in `src/scripts/data_processor.py` (class `DataProcessor`).
Strings stay strings, Python floats become `ℚ`, fallible Python code
(expressions that can raise) becomes `Option`-valued code.
-/

namespace BooksApi

/-- Helper for substring containment: does the character list start with the
given pattern list? -/
def listStartsWith : List Char → List Char → Bool
  | [], _ => true
  | _ :: _, [] => false
  | a :: as, b :: bs => a == b && listStartsWith as bs

/-- Helper for substring containment: does the pattern occur as a contiguous
sublist anywhere in the character list? -/
def listHasSub (pat : List Char) : List Char → Bool
  | [] => pat.isEmpty
  | c :: rest => listStartsWith pat (c :: rest) || listHasSub pat rest

/-- Containment of `needle` as a contiguous substring of `hay`, modelling the
Python operator `in` on strings (used at scraper.py line 36). -/
def strContains (hay needle : String) : Bool :=
  listHasSub needle.toList hay.toList

/-- Whitespace removal at both ends of a character list. -/
def listTrim (s : List Char) : List Char :=
  ((s.dropWhile Char.isWhitespace).reverse.dropWhile Char.isWhitespace).reverse

/-- Models Python `str.strip()`: remove whitespace from both ends. -/
def strTrim (s : String) : String :=
  String.mk (listTrim s.toList)

/-- Models Python `str.startswith`. -/
def strStartsWith (s pre : String) : Bool :=
  listStartsWith pre.toList s.toList

/-- Replace every non-overlapping occurrence of `pat` (scanning left to
right) by `rep`, on character lists; the fuel argument bounds the scan and is
instantiated with the list length. -/
def listReplaceAux (pat rep : List Char) : Nat → List Char → List Char
  | 0, s => s
  | fuel + 1, s =>
    if !pat.isEmpty && listStartsWith pat s then
      rep ++ listReplaceAux pat rep fuel (s.drop pat.length)
    else
      match s with
      | [] => []
      | c :: rest => c :: listReplaceAux pat rep fuel rest

/-- Models Python `str.replace(pat, rep)`: every occurrence replaced. -/
def strReplaceAll (s pat rep : String) : String :=
  String.mk (listReplaceAux pat.toList rep.toList s.toList.length s.toList)

/-- Split a character list on every occurrence of a separator list; the fuel
argument bounds the scan and is instantiated with the list length. -/
def listSplitOn (sep : List Char) : Nat → List Char → List (List Char)
  | _, [] => [[]]
  | 0, s => [s]
  | fuel + 1, c :: rest =>
    if !sep.isEmpty && listStartsWith sep (c :: rest) then
      [] :: listSplitOn sep fuel ((c :: rest).drop sep.length)
    else
      match listSplitOn sep fuel rest with
      | [] => [[c]]
      | h :: t => (c :: h) :: t

/-- Split a character list on a separator, fuel prefilled. -/
def splitOnChars (s sep : List Char) : List (List Char) :=
  listSplitOn sep s.length s

/-- Embeds `BooksScraper.extract_rating` (scraper.py lines 30-38): walk the
rating table in insertion order and return the value of the first key that
occurs as a substring of the class label; 0 when none occurs. -/
def extract_rating (rating_class : String) : Nat :=
  if strContains rating_class "One" then 1
  else if strContains rating_class "Two" then 2
  else if strContains rating_class "Three" then 3
  else if strContains rating_class "Four" then 4
  else if strContains rating_class "Five" then 5
  else 0

/-- Numeric value of a list of decimal digit characters, most significant
first (the usual positional reading used by Python `int`/`float`). -/
def digitsToNat (ds : List Char) : Nat :=
  ds.foldl (fun n c => 10 * n + (c.toNat - '0'.toNat)) 0

/-- Parse an unsigned decimal literal (digits with an optional fractional
part, at least one digit overall), as Python `float` accepts for such
literals; `none` models the `ValueError` raised on anything else. -/
def parseUnsignedDecimal (s : List Char) : Option ℚ :=
  let intPart := s.takeWhile Char.isDigit
  let rest := s.dropWhile Char.isDigit
  match rest with
  | [] => if intPart.isEmpty then none else some (digitsToNat intPart : ℚ)
  | '.' :: frac =>
    if frac.all Char.isDigit && !(intPart.isEmpty && frac.isEmpty) then
      some ((digitsToNat intPart : ℚ) + (digitsToNat frac : ℚ) / (10 : ℚ) ^ frac.length)
    else none
  | _ => none

/-- Models Python `float(s)` on plain decimal literals: surrounding
whitespace is ignored, an optional sign precedes the digits; `none` models
the raised `ValueError` (exponent and special forms are out of scope — the
pipeline never feeds them in). -/
def parseFloat (s : String) : Option ℚ :=
  match listTrim s.toList with
  | '-' :: r => (parseUnsignedDecimal r).map (fun q => -q)
  | '+' :: r => parseUnsignedDecimal r
  | r => parseUnsignedDecimal r

/-- Models Python `int(s)` on decimal literals: surrounding whitespace
ignored, optional sign, then digits only; `none` models `ValueError`. -/
def parseInt (s : String) : Option Int :=
  let digits : List Char → Option Int := fun r =>
    if r.isEmpty || !(r.all Char.isDigit) then none else some (digitsToNat r : Int)
  match listTrim s.toList with
  | '-' :: r => (digits r).map (fun n => -n)
  | '+' :: r => digits r
  | r => digits r

/-- Embeds `BooksScraper.clean_price` (scraper.py lines 40-42): delete every
pound-sign and comma character (the `re.sub` pattern) and parse the rest as a
float; `none` models the `ValueError` propagating out of `float`. -/
def clean_price (price_text : String) : Option ℚ :=
  parseFloat (String.mk (price_text.toList.filter (fun c => !(c == '£' || c == ','))))

/-- First maximal run of digit characters in the list, if any — the list-level
model of `re.search` with a digits pattern. -/
def firstDigitRun : List Char → Option (List Char)
  | [] => none
  | c :: rest =>
    if c.isDigit then some ((c :: rest).takeWhile Char.isDigit)
    else firstDigitRun rest

/-- First embedded integer of a string, modelling
`re.search(r'\d+', s).group()` (scraper.py line 60); `none` when the string
holds no digit. -/
def firstIntOf (s : String) : Option Nat :=
  (firstDigitRun s.toList).map digitsToNat

/-- Parsed detail-page content as `scrape_book_details` reads it: each
`select_one` result is `Option`-valued (`none` models the selector finding
nothing), `star_rating` holds the class attribute list of the `p.star-rating`
element when that element exists, `table_rows` holds the text of the first
and second `td` of each `tr` of the striped table, and `breadcrumb` the text
entries of the breadcrumb list. -/
structure Page where
  h1 : Option String
  price_color : Option String
  availability : Option String
  star_rating : Option (List String)
  product_description : Option String
  table_rows : List (Option String × Option String)
  breadcrumb : List String
deriving Repr, DecidableEq

/-- The record dict built by `scrape_book_details` (scraper.py lines 82-94). -/
structure Book where
  title : String
  price : ℚ
  availability : Nat
  rating : Nat
  description : String
  category : String
  upc : String
  product_type : String
  tax : ℚ
  num_reviews : Int
  url : String
deriving Repr, DecidableEq

/-- Dict-style lookup in the `product_info` association list: the last
occurrence of a key wins, as Python dict insertion overwrites. -/
def lookupTable (tbl : List (String × String)) (key : String) : Option String :=
  tbl.reverse.lookup key

/-- Builds `product_info` from the table rows (scraper.py lines 71-76): the
text of each row's first `td` is the key, of the second the value, both
stripped; a row missing either cell raises (`.text` on `None`), modelled by
`none` aborting the whole extraction. -/
def buildProductInfo : List (Option String × Option String) → Option (List (String × String))
  | [] => some []
  | (k, v) :: rest => do
    let key ← k
    let value ← v
    let tail ← buildProductInfo rest
    pure ((strTrim key, strTrim value) :: tail)

/-- Embeds `BooksScraper.scrape_book_details` (scraper.py lines 44-97).
The whole body sits inside one `try`; any raising step (`.text` on a missing
element, `float`/`int` on unparsable text, an index past the class list)
makes the function return the empty dict, modelled by `none`. The guarded
steps (`if`-expressions and `dict.get` defaults in the source) default
instead of raising. `none` for `soup` models `get_page` having failed. -/
def scrape_book_details (soup : Option Page) (book_url : String) : Option Book :=
  match soup with
  | none => none
  | some page => do
    let titleEl ← page.h1
    let title := strTrim titleEl
    let priceText ← page.price_color
    let price_value ← clean_price (strTrim priceText)
    let availText ← page.availability
    let availability := strTrim availText
    let in_stock := (firstIntOf availability).getD 0
    let rating ← match page.star_rating with
      | some classes => (classes.get? 1).map extract_rating
      | none => some 0
    let description := (page.product_description.map strTrim).getD ""
    let product_info ← buildProductInfo page.table_rows
    let category := match page.breadcrumb.get? 2 with
      | some c => strTrim c
      | none => "Unknown"
    let upc := (lookupTable product_info "UPC").getD ""
    let product_type := (lookupTable product_info "Product Type").getD ""
    let tax ← clean_price ((lookupTable product_info "Tax").getD "£0.00")
    let num_reviews ← parseInt ((lookupTable product_info "Number of reviews").getD "0")
    pure { title := title, price := price_value, availability := in_stock,
           rating := rating, description := description, category := category,
           upc := upc, product_type := product_type, tax := tax,
           num_reviews := num_reviews, url := book_url }

/-- Scheme-and-authority part of a URL, used when a reference starts with a
slash: everything up to the first slash after the scheme separator. -/
def originOf (base : String) : String :=
  match splitOnChars base.toList (':' :: '/' :: '/' :: []) with
  | scheme :: rest₁ =>
    match splitOnChars (List.intercalate (':' :: '/' :: '/' :: []) rest₁) ['/'] with
    | auth :: _ => String.mk scheme ++ "://" ++ String.mk auth
    | [] => base
  | [] => base

/-- Directory part of a URL: all characters up to and including the last
slash. -/
def dirOf (base : String) : String :=
  String.mk ((base.toList.reverse.dropWhile (fun c => c ≠ '/')).reverse)

/-- Dot-segment removal over slash-separated path segments, as RFC 3986
resolution performs it. -/
def removeDotSegmentsAux : List (List Char) → List (List Char) → List (List Char)
  | [], acc => acc.reverse
  | ['.'] :: rest, acc => removeDotSegmentsAux rest acc
  | ('.' :: '.' :: []) :: rest, acc => removeDotSegmentsAux rest (acc.drop 1)
  | seg :: rest, acc => removeDotSegmentsAux rest (seg :: acc)

/-- Models Python `urllib.parse.urljoin` for the reference shapes the crawler
produces: an absolute URL is returned as is, a root-relative reference is
resolved against the base origin, and any other relative reference is merged
with the base directory with dot segments removed. -/
def urljoin (base url : String) : String :=
  if strStartsWith url "http://" || strStartsWith url "https://" then url
  else if strStartsWith url "/" then originOf base ++ url
  else
    dirOf base ++
      String.mk (List.intercalate ['/'] (removeDotSegmentsAux (splitOnChars url.toList ['/']) []))

/-- Embeds the link-building branch of `BooksScraper.scrape_catalogue_page`
(scraper.py lines 114-124): an up-three-levels link has the marker removed
(every occurrence, as `str.replace` does) and `catalogue/` prepended; a link
already starting with `catalogue/` is joined directly; anything else gets
`catalogue/` prepended. -/
def build_book_url (base_url relative_url : String) : String :=
  if strStartsWith relative_url "../../../" then
    urljoin base_url ("catalogue/" ++ strReplaceAll relative_url "../../../" "")
  else if strStartsWith relative_url "catalogue/" then
    urljoin base_url relative_url
  else
    urljoin base_url ("catalogue/" ++ relative_url)

/-- Location of numbered catalogue page `n`, as interpolated at
scraper.py line 138. -/
def pageUrl (base_url : String) (n : Nat) : String :=
  base_url ++ "catalogue/page-" ++ toString n ++ ".html"

/-- Loop body of `BooksScraper.get_all_catalogue_pages` (scraper.py lines
131-149). `site n` is the number of `article.product_pod` entries on
`page-n.html`, `none` meaning the fetch failed; the pair returned is the
accumulated page list and the list of page numbers actually fetched. `fuel`
bounds the source's unbounded `while True` loop; every run of the loop that
terminates is reproduced by any sufficiently large fuel. -/
def getAllCataloguePagesAux (site : Nat → Option Nat) (base_url : String) :
    Nat → Nat → List String → List Nat → List String × List Nat
  | 0, _, pages, fetched => (pages, fetched)
  | fuel + 1, current_page, pages, fetched =>
    let nxt := current_page + 1
    match site nxt with
    | none => (pages, fetched ++ [nxt])
    | some k =>
      if k = 0 then (pages, fetched ++ [nxt])
      else getAllCataloguePagesAux site base_url fuel nxt
        (pages ++ [pageUrl base_url nxt]) (fetched ++ [nxt])

/-- Embeds `BooksScraper.get_all_catalogue_pages`: starts from
`[base_url]` (page 1, never fetched) and walks `page-2.html`,
`page-3.html`, ... until an unavailable or empty page stops the loop. -/
def get_all_catalogue_pages (site : Nat → Option Nat) (base_url : String) (fuel : Nat) :
    List String :=
  (getAllCataloguePagesAux site base_url fuel 1 [base_url] []).1

/-- The page numbers `get_all_catalogue_pages` actually requests during a
run. -/
def cataloguePagesFetched (site : Nat → Option Nat) (base_url : String) (fuel : Nat) :
    List Nat :=
  (getAllCataloguePagesAux site base_url fuel 1 [base_url] []).2

/-- Loop body of `BooksScraper.scrape_all_books` (scraper.py lines 168-183),
generic in the record type. `outcomes` lists the result of
`scrape_book_details` for each discovered book URL in order (`none` = empty
dict = falsy, skipped); `i` is the 1-based enumeration counter over the
URLs; a successful record gets `id := i` attached and is appended; after
every iteration with `i % 50 = 0` the current record set is written to a
checkpoint labeled `i`. -/
def scrapeAllBooksAux {α : Type} :
    List (Option α) → Nat → List (α × Nat) → List (Nat × List (α × Nat)) →
    List (α × Nat) × List (Nat × List (α × Nat))
  | [], _, books_data, checkpoints => (books_data, checkpoints)
  | o :: rest, i, books_data, checkpoints =>
    let newBooks := match o with
      | some b => books_data ++ [(b, i)]
      | none => books_data
    let newCheckpoints :=
      if i % 50 = 0 then checkpoints ++ [(i, newBooks)] else checkpoints
    scrapeAllBooksAux rest (i + 1) newBooks newCheckpoints

/-- Embeds the record-accumulation loop of `BooksScraper.scrape_all_books`:
returns the final record list (each with its attached id) and the ordered
list of checkpoints written, each checkpoint carrying its label and
contents. -/
def scrape_all_books {α : Type} (outcomes : List (Option α)) :
    List (α × Nat) × List (Nat × List (α × Nat)) :=
  scrapeAllBooksAux outcomes 1 [] []

/-- Reference recursion for the loop: the successful outcomes with their
1-based attempt indices attached, starting the count at `i`. -/
def collectWithIds {α : Type} : List (Option α) → Nat → List (α × Nat)
  | [], _ => []
  | none :: rest, i => collectWithIds rest (i + 1)
  | some b :: rest, i => (b, i) :: collectWithIds rest (i + 1)

/-- Checkpoints the loop is expected to write: one for every attempt index
divisible by 50, labeled with that attempt index and holding the successes
among the first that-many attempts. -/
def attemptCheckpoints {α : Type} (outcomes : List (Option α)) :
    List (Nat × List (α × Nat)) :=
  (List.range' 1 outcomes.length).filterMap fun j =>
    if j % 50 = 0 then some (j, collectWithIds (outcomes.take j) 1) else none

/-- A row of the raw harvest table as `DataProcessor.clean_data` receives it.
The four columns the source explicitly `fillna`s (rating, availability,
num_reviews, description) are `Option`-valued, `none` modelling a null cell;
the other columns always carry a value in the harvest the scraper writes. -/
structure RawRecord where
  title : String
  price : ℚ
  availability : Option ℚ
  rating : Option ℚ
  description : Option String
  category : String
  upc : String
  product_type : String
  tax : ℚ
  num_reviews : Option ℚ
  url : String
  id : Nat
deriving Repr, DecidableEq

/-- The four labels of the `pd.cut` call at data_processor.py lines 46-48. -/
inductive PriceLabel where
  | Budget
  | MidRange
  | Premium
  | Luxury
deriving Repr, DecidableEq

/-- Embeds the `pd.cut(df['price'], bins=[0, 20, 40, 60, inf], labels=...)`
call (data_processor.py lines 46-48). `pd.cut` with its default `right=True`
and without `include_lowest` bins a value into left-open right-closed
intervals, so the bins are (0,20], (20,40], (40,60], (60,inf); a price
outside every bin (p ≤ 0) gets no label, which `none` models. -/
def priceRange (p : ℚ) : Option PriceLabel :=
  if 0 < p ∧ p ≤ 20 then some PriceLabel.Budget
  else if 20 < p ∧ p ≤ 40 then some PriceLabel.MidRange
  else if 40 < p ∧ p ≤ 60 then some PriceLabel.Premium
  else if 60 < p then some PriceLabel.Luxury
  else none

/-- Round a rational to the nearest integer, ties to the even neighbour —
the rounding `pandas.round` (IEEE round-half-even) applies. -/
def roundHalfEven (x : ℚ) : Int :=
  if x - (⌊x⌋ : ℚ) < 1 / 2 then ⌊x⌋
  else if 1 / 2 < x - (⌊x⌋ : ℚ) then ⌊x⌋ + 1
  else if Even ⌊x⌋ then ⌊x⌋ else ⌊x⌋ + 1

/-- Round a rational to 2 decimal places, ties to even, as `.round(2)` does
in the transform stage. -/
def roundTo2 (x : ℚ) : ℚ :=
  (roundHalfEven (100 * x) : ℚ) / 100

/-- Title-casing of a string as Python `str.title()` performs it: a letter
following a non-letter is uppercased, a letter following a letter is
lowercased. -/
def titleCaseAux : List Char → Bool → List Char
  | [], _ => []
  | c :: rest, prevAlpha =>
    (if prevAlpha then c.toLower else c.toUpper) :: titleCaseAux rest c.isAlpha

/-- String-level wrapper of `titleCaseAux`, modelling
`df['category'].str.title()` (data_processor.py line 31). -/
def titleCase (s : String) : String :=
  String.mk (titleCaseAux s.toList false)

/-- Keep-first deduplication by the (title, upc) key, carrying the set of
keys already seen. -/
def dropDuplicatesAux : List RawRecord → List (String × String) → List RawRecord
  | [], _ => []
  | r :: rest, seen =>
    if (r.title, r.upc) ∈ seen then dropDuplicatesAux rest seen
    else r :: dropDuplicatesAux rest ((r.title, r.upc) :: seen)

/-- Embeds `df.drop_duplicates(subset=['title', 'upc'])`
(data_processor.py line 23): keep the first row of each (title, upc) pair,
preserving row order. -/
def dropDuplicates (df : List RawRecord) : List RawRecord :=
  dropDuplicatesAux df []

/-- A row of the processed book table: the raw columns after cleaning plus
the two derived columns. -/
structure ProcessedRecord where
  title : String
  price : ℚ
  availability : ℚ
  rating : ℚ
  description : String
  category : String
  upc : String
  product_type : String
  tax : ℚ
  num_reviews : ℚ
  url : String
  id : Nat
  price_range : Option PriceLabel
  popularity_score : ℚ
deriving Repr, DecidableEq

/-- Row-wise part of `DataProcessor.clean_data` (data_processor.py lines
25-50): strip title/description/category, title-case category, fill null
rating/availability/num_reviews with 0 and null description with the empty
string, then attach `price_range` and `popularity_score`. The `pd.to_numeric`
coercions are the identity here because the modelled columns are already
numeric. -/
def processRecord (r : RawRecord) : ProcessedRecord :=
  let rating := r.rating.getD 0
  let availability := r.availability.getD 0
  let num_reviews := r.num_reviews.getD 0
  { title := strTrim r.title
    price := r.price
    availability := availability
    rating := rating
    description := strTrim (r.description.getD "")
    category := titleCase (strTrim r.category)
    upc := r.upc
    product_type := r.product_type
    tax := r.tax
    num_reviews := num_reviews
    url := r.url
    id := r.id
    price_range := priceRange r.price
    popularity_score := roundTo2 (rating * 2 + num_reviews * (1 / 10)) }

/-- Embeds `DataProcessor.clean_data` (data_processor.py lines 18-53):
deduplicate by (title, upc) first, then apply the column-wise cleaning and
derived columns row by row. The `id` column is never touched. -/
def clean_data (df : List RawRecord) : List ProcessedRecord :=
  (dropDuplicates df).map processRecord

/-- A row of the category aggregate table
(data_processor.py lines 55-66). -/
structure CategoryRow where
  category : String
  total_books : Nat
  avg_price : ℚ
  min_price : ℚ
  max_price : ℚ
  avg_rating : ℚ
deriving Repr, DecidableEq

/-- Minimum of a list of rationals (the `min` aggregation); junk value 0 on
the empty list, which the grouping never produces. -/
def qListMin : List ℚ → ℚ
  | [] => 0
  | x :: xs => xs.foldl min x

/-- Maximum of a list of rationals (the `max` aggregation); junk value 0 on
the empty list, which the grouping never produces. -/
def qListMax : List ℚ → ℚ
  | [] => 0
  | x :: xs => xs.foldl max x

/-- Mean of a list of rationals (the `mean` aggregation). -/
def qListMean (l : List ℚ) : ℚ :=
  l.sum / (l.length : ℚ)

/-- Lexicographic code-point comparison of character lists — the order
Python string comparison uses, hence the key order of the sorted pandas
groupby. -/
def listCharLe : List Char → List Char → Bool
  | [], _ => true
  | _ :: _, [] => false
  | a :: as, b :: bs =>
    if a.toNat < b.toNat then true
    else if b.toNat < a.toNat then false
    else listCharLe as bs

/-- String-level code-point order. -/
def strLe (a b : String) : Bool :=
  listCharLe a.toList b.toList

/-- The aggregate row `groupby('category').agg(...).round(2)` produces for
one category value: count of rows, mean/min/max price and mean rating over
the group, all rounded to 2 places. -/
def categoryRow (df : List ProcessedRecord) (c : String) : CategoryRow :=
  let g := df.filter (fun r => r.category == c)
  let prices := g.map (fun r => r.price)
  { category := c
    total_books := g.length
    avg_price := roundTo2 (qListMean prices)
    min_price := roundTo2 (qListMin prices)
    max_price := roundTo2 (qListMax prices)
    avg_rating := roundTo2 (qListMean (g.map (fun r => r.rating))) }

/-- Embeds `DataProcessor.create_categories_data` (data_processor.py lines
55-66): `groupby` with its default `sort=True` emits one row per distinct
category value, rows ordered by ascending category key. -/
def create_categories_data (df : List ProcessedRecord) : List CategoryRow :=
  (((df.map (fun r => r.category)).dedup).insertionSort
      (fun a b => strLe a b = true)).map (categoryRow df)

/-- A raw harvest record with the given title, upc, id, price and category;
all remaining fields fixed to representative well-formed values. Used to
instantiate the transform stage on concrete inputs. -/
def rawRec (t u : String) (i : Nat) (p : ℚ) (c : String) : RawRecord :=
  { title := t, price := p, availability := some 3, rating := some 4,
    description := some "d", category := c, upc := u, product_type := "books",
    tax := 0, num_reviews := some 2, url := "https://x/", id := i }

/-- A processed record with the given category and id; all remaining fields
fixed to representative well-formed values. Used to instantiate the category
aggregation on concrete inputs. -/
def procRec (c : String) (i : Nat) : ProcessedRecord :=
  { title := "T" ++ toString i, price := 10, availability := 1, rating := 3,
    description := "", category := c, upc := "U" ++ toString i,
    product_type := "books", tax := 0, num_reviews := 1, url := "u", id := i,
    price_range := some PriceLabel.Budget, popularity_score := 6 }

/-- A detail page whose title is present but whose displayed price text does
not parse as a number; every other field is well-formed. -/
def badPricePage : Page :=
  { h1 := some "A Light in the Attic", price_color := some "not-a-price",
    availability := some "In stock (22 available)",
    star_rating := some ["star-rating", "Three"],
    product_description := some "desc", table_rows := [],
    breadcrumb := ["Home", "Books", "Poetry"] }

/-- A detail page with no title element. -/
def noTitlePage : Page :=
  { h1 := none, price_color := some "£10.00",
    availability := some "In stock (1 available)", star_rating := none,
    product_description := none, table_rows := [], breadcrumb := [] }

/-- A detail page carrying the given title, price text and availability
text, with every guarded optional part absent: no rating element, no
description block, an empty striped table and an empty breadcrumb. -/
def minimalPage (t pv av : String) : Page :=
  { h1 := some t, price_color := some pv, availability := some av,
    star_rating := none, product_description := none, table_rows := [],
    breadcrumb := [] }

/-- The record the extractor builds from a `minimalPage`: price parsed from
the price text, availability from the first embedded integer, and every
guarded field at its documented default. -/
def guardedDefaultsBook (t av u : String) (q : ℚ) : Book :=
  { title := strTrim t, price := q,
    availability := (firstIntOf (strTrim av)).getD 0, rating := 0,
    description := "", category := "Unknown", upc := "", product_type := "",
    tax := 0, num_reviews := 0, url := u }

/-! ### Helper lemmas -/

/-- The code-point order on character lists is total. -/
theorem listCharLe_total :
    ∀ a b : List Char, listCharLe a b = true ∨ listCharLe b a = true := by
  intro a
  induction a with
  | nil => intro b; left; simp [listCharLe]
  | cons x xs ih =>
    intro b
    cases b with
    | nil => right; simp [listCharLe]
    | cons y ys =>
      by_cases h1 : x.toNat < y.toNat
      · left; simp [listCharLe, h1]
      · by_cases h2 : y.toNat < x.toNat
        · right; simp [listCharLe, h1, h2]
        · rcases ih ys with h | h
          · left; simp [listCharLe, h1, h2, h]
          · right; simp [listCharLe, h1, h2, h]

/-- The code-point order on character lists is transitive. -/
theorem listCharLe_trans :
    ∀ a b c : List Char,
      listCharLe a b = true → listCharLe b c = true → listCharLe a c = true := by
  intro a
  induction a with
  | nil => intro b c _ _; simp [listCharLe]
  | cons x xs ih =>
    intro b c hab hbc
    cases b with
    | nil => simp [listCharLe] at hab
    | cons y ys =>
      cases c with
      | nil => simp [listCharLe] at hbc
      | cons z zs =>
        by_cases h1 : x.toNat < y.toNat
        · by_cases h2 : y.toNat < z.toNat
          · have hxz : x.toNat < z.toNat := lt_trans h1 h2
            simp [listCharLe, hxz]
          · by_cases h3 : z.toNat < y.toNat
            · simp [listCharLe, h2, h3] at hbc
            · have hxz : x.toNat < z.toNat := by omega
              simp [listCharLe, hxz]
        · by_cases h4 : y.toNat < x.toNat
          · simp [listCharLe, h1, h4] at hab
          · have hxy : x.toNat = y.toNat := by omega
            simp only [listCharLe, if_neg h1, if_neg h4] at hab
            by_cases h2 : y.toNat < z.toNat
            · have hxz : x.toNat < z.toNat := by omega
              simp [listCharLe, hxz]
            · by_cases h3 : z.toNat < y.toNat
              · simp [listCharLe, h2, h3] at hbc
              · simp only [listCharLe, if_neg h2, if_neg h3] at hbc
                have hxz : ¬ x.toNat < z.toNat := by omega
                have hzx : ¬ z.toNat < x.toNat := by omega
                simp [listCharLe, hxz, hzx, ih ys zs hab hbc]

/-- Keep-first deduplication yields a sublist of its input, for every set of
already-seen keys. -/
theorem dropDuplicatesAux_sublist :
    ∀ (l : List RawRecord) (seen : List (String × String)),
      (dropDuplicatesAux l seen).Sublist l := by
  intro l
  induction l with
  | nil => intro seen; simp [dropDuplicatesAux]
  | cons r rest ih =>
    intro seen
    unfold dropDuplicatesAux
    split_ifs
    · exact (ih _).cons r
    · exact (ih _).cons₂ r

/-- Half-even rounding never lands below the floor nor above the floor plus
one. -/
theorem roundHalfEven_between (x : ℚ) :
    ⌊x⌋ ≤ roundHalfEven x ∧ roundHalfEven x ≤ ⌊x⌋ + 1 := by
  unfold roundHalfEven
  split_ifs <;> omega

/-- Half-even rounding is monotone. -/
theorem roundHalfEven_mono {x y : ℚ} (hxy : x ≤ y) :
    roundHalfEven x ≤ roundHalfEven y := by
  have hf : ⌊x⌋ ≤ ⌊y⌋ := Int.floor_mono hxy
  rcases eq_or_lt_of_le hf with heq | hlt
  · have hr : x - (⌊x⌋ : ℚ) ≤ y - (⌊x⌋ : ℚ) := by linarith
    unfold roundHalfEven
    rw [← heq]
    split_ifs <;> first | omega | (exfalso; linarith)
  · have h1 := (roundHalfEven_between x).2
    have h2 := (roundHalfEven_between y).1
    omega

/-- Rounding to two decimal places is monotone. -/
theorem roundTo2_mono {x y : ℚ} (hxy : x ≤ y) : roundTo2 x ≤ roundTo2 y := by
  unfold roundTo2
  have h100 : (100 : ℚ) * x ≤ 100 * y := by linarith
  have h := roundHalfEven_mono h100
  have hcast : ((roundHalfEven (100 * x) : ℚ)) ≤ (roundHalfEven (100 * y) : ℚ) := by
    exact_mod_cast h
  linarith

/-- A min-fold over rationals is below its seed and every element. -/
theorem foldl_min_le :
    ∀ (xs : List ℚ) (a : ℚ), xs.foldl min a ≤ a ∧ ∀ x ∈ xs, xs.foldl min a ≤ x := by
  intro xs
  induction xs with
  | nil => intro a; exact ⟨le_refl a, by simp⟩
  | cons b bs ih =>
    intro a
    constructor
    · exact le_trans (ih (min a b)).1 (min_le_left a b)
    · intro x hx
      rcases List.mem_cons.mp hx with rfl | hx
      · exact le_trans (ih (min a x)).1 (min_le_right a x)
      · exact (ih (min a b)).2 x hx

/-- A max-fold over rationals is above its seed and every element. -/
theorem foldl_max_ge :
    ∀ (xs : List ℚ) (a : ℚ), a ≤ xs.foldl max a ∧ ∀ x ∈ xs, x ≤ xs.foldl max a := by
  intro xs
  induction xs with
  | nil => intro a; exact ⟨le_refl a, by simp⟩
  | cons b bs ih =>
    intro a
    constructor
    · exact le_trans (le_max_left a b) (ih (max a b)).1
    · intro x hx
      rcases List.mem_cons.mp hx with rfl | hx
      · exact le_trans (le_max_right a x) (ih (max a x)).1
      · exact (ih (max a b)).2 x hx

/-- The list minimum is below every member. -/
theorem qListMin_le_mem : ∀ (l : List ℚ), ∀ x ∈ l, qListMin l ≤ x := by
  intro l x hx
  cases l with
  | nil => cases hx
  | cons a xs =>
    rcases List.mem_cons.mp hx with rfl | hmem
    · exact (foldl_min_le xs x).1
    · exact (foldl_min_le xs a).2 x hmem

/-- The list maximum is above every member. -/
theorem le_qListMax_mem : ∀ (l : List ℚ), ∀ x ∈ l, x ≤ qListMax l := by
  intro l x hx
  cases l with
  | nil => cases hx
  | cons a xs =>
    rcases List.mem_cons.mp hx with rfl | hmem
    · exact (foldl_max_ge xs x).1
    · exact (foldl_max_ge xs a).2 x hmem

/-- A uniform lower bound on the members bounds the sum from below. -/
theorem card_mul_le_sum (l : List ℚ) (m : ℚ) (h : ∀ x ∈ l, m ≤ x) :
    (l.length : ℚ) * m ≤ l.sum := by
  induction l with
  | nil => simp
  | cons a as ih =>
    have ha := h a (by simp)
    have ih2 := ih (fun x hx => h x (by simp [hx]))
    simp only [List.length_cons, List.sum_cons]
    push_cast
    linarith

/-- A uniform upper bound on the members bounds the sum from above. -/
theorem sum_le_card_mul (l : List ℚ) (M : ℚ) (h : ∀ x ∈ l, x ≤ M) :
    l.sum ≤ (l.length : ℚ) * M := by
  induction l with
  | nil => simp
  | cons a as ih =>
    have ha := h a (by simp)
    have ih2 := ih (fun x hx => h x (by simp [hx]))
    simp only [List.length_cons, List.sum_cons]
    push_cast
    linarith

/-- On a nonempty list of rationals, the mean lies between the minimum and
the maximum. -/
theorem qListMean_bounds (l : List ℚ) (hne : l ≠ []) :
    qListMin l ≤ qListMean l ∧ qListMean l ≤ qListMax l := by
  have hlen : 0 < (l.length : ℚ) := by
    have h := List.length_pos.mpr hne
    exact_mod_cast h
  constructor
  · rw [qListMean, le_div_iff₀ hlen]
    have h := card_mul_le_sum l (qListMin l) (qListMin_le_mem l)
    linarith
  · rw [qListMean, div_le_iff₀ hlen]
    have h := sum_le_card_mul l (qListMax l) (le_qListMax_mem l)
    linarith

/-- The page-discovery loop only ever appends to the page list it carries:
whatever it returns extends the accumulated pages. -/
theorem getAllCataloguePagesAux_pages_extend :
    ∀ (site : Nat → Option Nat) (base : String) (fuel cur : Nat)
      (pages : List String) (fetched : List Nat),
      ∃ t, (getAllCataloguePagesAux site base fuel cur pages fetched).1 = pages ++ t := by
  intro site base fuel
  induction fuel with
  | zero =>
    intro cur pages fetched
    exact ⟨[], by simp [getAllCataloguePagesAux]⟩
  | succ f ih =>
    intro cur pages fetched
    cases hs : site (cur + 1) with
    | none => exact ⟨[], by simp [getAllCataloguePagesAux, hs]⟩
    | some k =>
      by_cases hk : k = 0
      · exact ⟨[], by simp [getAllCataloguePagesAux, hs, hk]⟩
      · obtain ⟨t, ht⟩ :=
          ih (cur + 1) (pages ++ [pageUrl base (cur + 1)]) (fetched ++ [cur + 1])
        exact ⟨pageUrl base (cur + 1) :: t,
          by simp [getAllCataloguePagesAux, hs, hk, ht]⟩

/-- Every page number the page-discovery loop fetches is either one it had
already fetched or at least one past the current page counter. -/
theorem getAllCataloguePagesAux_fetched_ge :
    ∀ (site : Nat → Option Nat) (base : String) (fuel cur : Nat)
      (pages : List String) (fetched : List Nat),
      ∀ m ∈ (getAllCataloguePagesAux site base fuel cur pages fetched).2,
        m ∈ fetched ∨ cur + 1 ≤ m := by
  intro site base fuel
  induction fuel with
  | zero =>
    intro cur pages fetched m hm
    left
    simpa [getAllCataloguePagesAux] using hm
  | succ f ih =>
    intro cur pages fetched m hm
    cases hs : site (cur + 1) with
    | none =>
      simp [getAllCataloguePagesAux, hs] at hm
      rcases hm with hm | hm
      · exact Or.inl hm
      · exact Or.inr (by omega)
    | some k =>
      by_cases hk : k = 0
      · simp [getAllCataloguePagesAux, hs, hk] at hm
        rcases hm with hm | hm
        · exact Or.inl hm
        · exact Or.inr (by omega)
      · rw [show getAllCataloguePagesAux site base (f + 1) cur pages fetched =
            getAllCataloguePagesAux site base f (cur + 1)
              (pages ++ [pageUrl base (cur + 1)]) (fetched ++ [cur + 1]) by
          simp [getAllCataloguePagesAux, hs, hk]] at hm
        rcases ih (cur + 1) (pages ++ [pageUrl base (cur + 1)])
            (fetched ++ [cur + 1]) m hm with hmem | hge
        · rcases List.mem_append.mp hmem with hmem | hmem
          · exact Or.inl hmem
          · exact Or.inr (by simp at hmem; omega)
        · exact Or.inr (by omega)

/-- The record-accumulation loop, characterized against its reference
recursion: starting from counter `i` and accumulators `acc`, `cps`, the loop
returns `acc` extended with the successes (ids attached from `i` on), and
`cps` extended with one checkpoint per attempt index divisible by 50,
holding `acc` plus the successes among the attempts up to it. -/
theorem scrapeAllBooksAux_spec {α : Type} :
    ∀ (outcomes : List (Option α)) (i : Nat) (acc : List (α × Nat))
      (cps : List (Nat × List (α × Nat))),
      scrapeAllBooksAux outcomes i acc cps =
        (acc ++ collectWithIds outcomes i,
         cps ++ (List.range' i outcomes.length).filterMap (fun j =>
           if j % 50 = 0 then
             some (j, acc ++ collectWithIds (outcomes.take (j + 1 - i)) i)
           else none)) := by
  intro outcomes
  induction outcomes with
  | nil => intro i acc cps; simp [scrapeAllBooksAux, collectWithIds]
  | cons o rest ih =>
    intro i acc cps
    cases o with
    | some b =>
      show scrapeAllBooksAux rest (i + 1) (acc ++ [(b, i)])
          (if i % 50 = 0 then cps ++ [(i, acc ++ [(b, i)])] else cps) = _
      rw [ih]
      refine congrArg₂ Prod.mk ?_ ?_
      · simp [collectWithIds]
      · rw [List.length_cons, List.range'_succ, List.filterMap_cons]
        have hstep : ∀ j, i + 1 ≤ j →
            (if j % 50 = 0 then
              some (j, (acc ++ [(b, i)]) ++
                collectWithIds (rest.take (j + 1 - (i + 1))) (i + 1))
            else none) =
            (if j % 50 = 0 then
              some (j, acc ++ collectWithIds ((some b :: rest).take (j + 1 - i)) i)
            else none) := by
          intro j hj
          obtain ⟨k, hk⟩ : ∃ k, j - i = k + 1 := ⟨j - i - 1, by omega⟩
          have e1 : j + 1 - i = k + 2 := by omega
          have e2 : j + 1 - (i + 1) = k + 1 := by omega
          rw [e1, e2, List.take_succ_cons]
          simp [collectWithIds]
        rw [List.filterMap_congr
          (fun j hj => hstep j (List.mem_range'_1.mp hj).1)]
        have hval : acc ++ collectWithIds ((some b :: rest).take (i + 1 - i)) i
            = acc ++ [(b, i)] := by
          have e : i + 1 - i = 1 := by omega
          rw [e]
          simp [collectWithIds]
        split_ifs with h50 <;> simp [hval, collectWithIds, List.append_assoc]
    | none =>
      show scrapeAllBooksAux rest (i + 1) acc
          (if i % 50 = 0 then cps ++ [(i, acc)] else cps) = _
      rw [ih]
      refine congrArg₂ Prod.mk ?_ ?_
      · simp [collectWithIds]
      · rw [List.length_cons, List.range'_succ, List.filterMap_cons]
        have hstep : ∀ j, i + 1 ≤ j →
            (if j % 50 = 0 then
              some (j, acc ++ collectWithIds (rest.take (j + 1 - (i + 1))) (i + 1))
            else none) =
            (if j % 50 = 0 then
              some (j, acc ++ collectWithIds ((none :: rest).take (j + 1 - i)) i)
            else none) := by
          intro j hj
          obtain ⟨k, hk⟩ : ∃ k, j - i = k + 1 := ⟨j - i - 1, by omega⟩
          have e1 : j + 1 - i = k + 2 := by omega
          have e2 : j + 1 - (i + 1) = k + 1 := by omega
          rw [e1, e2, List.take_succ_cons]
          simp [collectWithIds]
        rw [List.filterMap_congr
          (fun j hj => hstep j (List.mem_range'_1.mp hj).1)]
        have hval : acc ++ collectWithIds ((none :: rest).take (i + 1 - i)) i
            = acc := by
          have e : i + 1 - i = 1 := by omega
          rw [e]
          simp [collectWithIds]
        split_ifs with h50 <;> simp [hval, collectWithIds, List.append_assoc]

/-! ### Claim theorems -/

/-- C1, counterexample: the transform bins prices with `pd.cut`'s default
right-closed intervals, so a price exactly on the 20 boundary falls in the
lower bucket (Budget, not Mid-range), a price of exactly 60 falls in Premium
rather than Luxury, and a price of 0 receives no label at all — refuting the
claimed half-open `[lower, upper)` semantics at its own boundary examples. -/
theorem priceRange_at_boundary_goes_low :
    priceRange 20 = some PriceLabel.Budget ∧
    priceRange 20 ≠ some PriceLabel.MidRange ∧
    priceRange 60 = some PriceLabel.Premium ∧
    priceRange 60 ≠ some PriceLabel.Luxury ∧
    priceRange 0 = none ∧
    priceRange 0 ≠ some PriceLabel.Budget := by
  refine ⟨by decide, by decide, by decide, by decide, by decide, by decide⟩

/-- C1, amended: `priceRange` buckets prices into the left-open right-closed
intervals (0,20], (20,40], (40,60], (60,∞), so a price exactly on a boundary
belongs to the lower bucket, and a price at or below 0 receives no label;
in particular priceRange(20)=Budget, priceRange(19.99)=Budget,
priceRange(60)=Premium, priceRange(59.99)=Premium, priceRange(0)=none. -/
theorem priceRange_right_closed_characterization :
    ∀ p : ℚ,
      (priceRange p = some PriceLabel.Budget ↔ 0 < p ∧ p ≤ 20) ∧
      (priceRange p = some PriceLabel.MidRange ↔ 20 < p ∧ p ≤ 40) ∧
      (priceRange p = some PriceLabel.Premium ↔ 40 < p ∧ p ≤ 60) ∧
      (priceRange p = some PriceLabel.Luxury ↔ 60 < p) ∧
      (priceRange p = none ↔ p ≤ 0) := by
  intro p
  rcases le_or_lt p 0 with h0 | h0
  · have hp : priceRange p = none := by
      unfold priceRange
      split_ifs with h1 h2 h3 h4
      · exact absurd h1.1 (by linarith)
      · exact absurd h2.1 (by linarith)
      · exact absurd h3.1 (by linarith)
      · exact absurd h4 (by linarith)
      · rfl
    rw [hp]
    refine ⟨?_, ?_, ?_, ?_, ?_⟩ <;> simp <;>
      first
        | linarith
        | (intro h1; linarith)
  · rcases le_or_lt p 20 with h20 | h20
    · have hp : priceRange p = some PriceLabel.Budget := by
        unfold priceRange
        split_ifs with h1 h2 h3 h4
        · rfl
        all_goals exact absurd ⟨h0, h20⟩ h1
      rw [hp]
      refine ⟨?_, ?_, ?_, ?_, ?_⟩ <;> simp <;>
        first
          | exact ⟨h0, h20⟩
          | linarith
          | (intro h1; linarith)
    · rcases le_or_lt p 40 with h40 | h40
      · have hp : priceRange p = some PriceLabel.MidRange := by
          unfold priceRange
          split_ifs with h1 h2 h3 h4
          · exact absurd h1.2 (by linarith)
          · rfl
          all_goals exact absurd ⟨h20, h40⟩ h2
        rw [hp]
        refine ⟨?_, ?_, ?_, ?_, ?_⟩ <;> simp <;>
          first
            | exact ⟨h20, h40⟩
            | linarith
            | (intro h1; linarith)
      · rcases le_or_lt p 60 with h60 | h60
        · have hp : priceRange p = some PriceLabel.Premium := by
            unfold priceRange
            split_ifs with h1 h2 h3 h4
            · exact absurd h1.2 (by linarith)
            · exact absurd h2.2 (by linarith)
            · rfl
            all_goals exact absurd ⟨h40, h60⟩ h3
          rw [hp]
          refine ⟨?_, ?_, ?_, ?_, ?_⟩ <;> simp <;>
            first
              | exact ⟨h40, h60⟩
              | linarith
              | (intro h1; linarith)
        · have hp : priceRange p = some PriceLabel.Luxury := by
            unfold priceRange
            split_ifs with h1 h2 h3
            · exact absurd h1.2 (by linarith)
            · exact absurd h2.2 (by linarith)
            · exact absurd h3.2 (by linarith)
            · rfl
          rw [hp]
          refine ⟨?_, ?_, ?_, ?_, ?_⟩ <;> simp <;>
            first
              | exact h60
              | linarith
              | (intro h1; linarith)

/-- C5, counterexample: on the claim's own input, the up-three-levels branch
strips the marker and then unconditionally prepends another `catalogue/`
segment, producing a doubled `catalogue/catalogue/` path rather than the
claimed `https://site/catalogue/foo/index.html`. -/
theorem marker_link_double_catalogue :
    build_book_url "https://site/" "../../../catalogue/foo/index.html" =
      "https://site/catalogue/catalogue/foo/index.html" ∧
    ("https://site/catalogue/catalogue/foo/index.html" : String) ≠
      "https://site/catalogue/foo/index.html" := by
  exact ⟨by decide, by decide⟩

/-- C5, amended: the Link Normalizer maps the relative link
`../../../catalogue/foo/index.html` with base `https://site/` to
`https://site/catalogue/catalogue/foo/index.html` (marker stripped, fixed
`catalogue/` prefix added in front of the remainder, which here already
started with `catalogue/`), and maps a link already beginning with
`catalogue/`, such as `catalogue/bar/index.html`, to
`https://site/catalogue/bar/index.html`. -/
theorem build_book_url_spec_examples :
    build_book_url "https://site/" "../../../catalogue/foo/index.html" =
      "https://site/catalogue/catalogue/foo/index.html" ∧
    build_book_url "https://site/" "catalogue/bar/index.html" =
      "https://site/catalogue/bar/index.html" := by
  exact ⟨by decide, by decide⟩

/-- C9, counterexample: the rating map tests substring containment, not
equality, so the label `Twenty-One` — not a key of the table — yields 1
rather than the claimed 0. -/
theorem extract_rating_substring_match :
    extract_rating "Twenty-One" = 1 ∧ (1 : Nat) ≠ 0 ∧
    ("Twenty-One" : String) ∉ (["One", "Two", "Three", "Four", "Five"] : List String) := by
  exact ⟨by decide, by decide, by decide⟩

/-- C9, amended: each exact table key yields its number, and a label in
which none of the five key words occurs as a substring yields 0; in general
the mapping returns the value of the first key (in the order One, Two,
Three, Four, Five) occurring as a substring of the label. -/
theorem extract_rating_table_spec :
    (extract_rating "One" = 1 ∧ extract_rating "Two" = 2 ∧ extract_rating "Three" = 3 ∧
      extract_rating "Four" = 4 ∧ extract_rating "Five" = 5) ∧
    ∀ rc : String,
      strContains rc "One" = false → strContains rc "Two" = false →
      strContains rc "Three" = false → strContains rc "Four" = false →
      strContains rc "Five" = false → extract_rating rc = 0 := by
  constructor
  · exact ⟨by decide, by decide, by decide, by decide, by decide⟩
  · intro rc h1 h2 h3 h4 h5
    simp [extract_rating, h1, h2, h3, h4, h5]

/-- C9, witness for the amended theorem: a label containing no table key
maps to 0, while the exact key `Three` maps to 3. -/
theorem extract_rating_table_spec_witness :
    extract_rating "star-rating" = 0 ∧ extract_rating "Three" = 3 :=
  ⟨extract_rating_table_spec.2 "star-rating" (by decide) (by decide) (by decide)
      (by decide) (by decide),
   extract_rating_table_spec.1.2.2.1⟩

/-- C8: Page Discovery fetches `page-2.html`, `page-3.html`, ... and stops as
soon as a fetched listing page is unavailable or has zero item entries,
excluding that page; on a site where page 4 is the first page with zero item
entries it returns exactly the locations of pages 1 through 3 in order —
the base catalogue URL (page 1) followed by `page-2.html` and
`page-3.html`. -/
theorem page_discovery_stops_at_first_empty :
    ∀ (site : Nat → Option Nat) (base : String) (fuel a₂ a₃ : Nat),
      3 ≤ fuel → site 2 = some a₂ → a₂ ≠ 0 → site 3 = some a₃ → a₃ ≠ 0 →
      site 4 = some 0 →
      get_all_catalogue_pages site base fuel =
        [base, pageUrl base 2, pageUrl base 3] := by
  intro site base fuel a₂ a₃ hfuel h2 h2ne h3 h3ne h4
  obtain ⟨f, rfl⟩ : ∃ f, fuel = f + 3 := ⟨fuel - 3, by omega⟩
  unfold get_all_catalogue_pages
  simp [getAllCataloguePagesAux, h2, h3, h4, h2ne, h3ne]

/-- C8, witness: a concrete site whose pages 2 and 3 hold 20 items and whose
page 4 is the first empty one yields exactly pages 1 through 3. -/
theorem page_discovery_stops_at_first_empty_witness :
    get_all_catalogue_pages (fun n => if n ≤ 3 then some 20 else some 0)
        "https://books.toscrape.com/" 10 =
      ["https://books.toscrape.com/",
       pageUrl "https://books.toscrape.com/" 2,
       pageUrl "https://books.toscrape.com/" 3] :=
  page_discovery_stops_at_first_empty (fun n => if n ≤ 3 then some 20 else some 0)
    "https://books.toscrape.com/" 10 20 20 (by decide) (by decide) (by decide)
    (by decide) (by decide) (by decide)

/-- C10: the discovery result always starts with the base catalogue URL and
is never empty; the base page's number 1 is never among the fetched page
numbers; and when every page request fails the result is exactly the base
URL alone. -/
theorem page_discovery_result_never_empty :
    ∀ (site : Nat → Option Nat) (base : String) (fuel : Nat),
      (get_all_catalogue_pages site base fuel).head? = some base ∧
      get_all_catalogue_pages site base fuel ≠ [] ∧
      1 ∉ cataloguePagesFetched site base fuel ∧
      ((∀ n, site n = none) → get_all_catalogue_pages site base fuel = [base]) := by
  intro site base fuel
  obtain ⟨t, ht⟩ := getAllCataloguePagesAux_pages_extend site base fuel 1 [base] []
  refine ⟨?_, ?_, ?_, ?_⟩
  · unfold get_all_catalogue_pages
    rw [ht]
    simp
  · unfold get_all_catalogue_pages
    rw [ht]
    simp
  · intro hmem
    rcases getAllCataloguePagesAux_fetched_ge site base fuel 1 [base] [] 1 hmem with
      h | h
    · simp at h
    · omega
  · intro hall
    unfold get_all_catalogue_pages
    cases fuel with
    | zero => rfl
    | succ f => simp [getAllCataloguePagesAux, hall 2]

/-- C10, witness: with every request failing, the result is exactly the base
URL, and its head is the base URL. -/
theorem page_discovery_result_never_empty_witness :
    (get_all_catalogue_pages (fun _ => none) "https://books.toscrape.com/" 5).head? =
      some "https://books.toscrape.com/" ∧
    get_all_catalogue_pages (fun _ => none) "https://books.toscrape.com/" 5 =
      ["https://books.toscrape.com/"] :=
  ⟨(page_discovery_result_never_empty (fun _ => none)
      "https://books.toscrape.com/" 5).1,
   (page_discovery_result_never_empty (fun _ => none)
      "https://books.toscrape.com/" 5).2.2.2 (fun _ => rfl)⟩

/-- C4, counterexample: in a run of 50 attempted item URLs whose first
attempt fails, only 49 records are ever successfully extracted — by the
claim no checkpoint should be written — yet the loop writes exactly one
checkpoint, labeled 50 (the attempt count) and holding 49 records, because
the checkpoint condition counts enumerated URLs, not successes. -/
theorem checkpoint_counts_attempts_not_successes :
    ((scrape_all_books (none :: List.replicate 49 (some Unit.unit))).2.map
        Prod.fst = [50]) ∧
    ((scrape_all_books (none :: List.replicate 49 (some Unit.unit))).2.map
        (fun cp => cp.2.length) = [49]) := by
  exact ⟨by decide, by decide⟩

/-- C4, amended: a checkpoint artifact is written exactly after every 50th
attempted item URL (counted by the 1-based enumeration of discovered URLs,
successes and failures alike), labeled with that attempt count and holding
the successes among the attempts so far; equivalently, the loop returns the
successes with their attempt ids and the checkpoints at attempt indices
divisible by 50. -/
theorem scrape_all_books_checkpoint_spec :
    ∀ (α : Type) (outcomes : List (Option α)),
      scrape_all_books outcomes =
        (collectWithIds outcomes 1, attemptCheckpoints outcomes) := by
  intro α outcomes
  unfold scrape_all_books attemptCheckpoints
  rw [scrapeAllBooksAux_spec]
  refine congrArg₂ Prod.mk (by simp) ?_
  rw [List.nil_append]
  exact List.filterMap_congr (fun j hj => by simp)

/-- C3, counterexample: `clean_data` never touches the `id` column, so after
deduplication removes the duplicate row with id 2, the surviving ids are
[1, 3] — with a gap — rather than the claimed dense renumbering [1, 2]. -/
theorem clean_data_keeps_gapped_ids :
    (clean_data [rawRec "T" "U" 1 10 "Fiction", rawRec "T" "U" 2 10 "Fiction",
        rawRec "S" "V" 3 30 "Travel"]).map (fun r => r.id) = [1, 3] ∧
    ([1, 3] : List Nat) ≠ [1, 2] := by
  exact ⟨by decide, by decide⟩

/-- C3, amended: after the Transform Stage deduplicates by (title, upc), the
id column is NOT reassigned: each surviving record keeps the id it carried in
the input, so the output ids are exactly the ids of the dedup survivors and
form a sublist of the input ids (with gaps wherever a duplicate was
removed), not a dense sequence. -/
theorem clean_data_preserves_surviving_ids :
    ∀ df : List RawRecord,
      (clean_data df).map (fun r => r.id) = (dropDuplicates df).map (fun r => r.id) ∧
      ((clean_data df).map (fun r => r.id)).Sublist (df.map (fun r => r.id)) := by
  intro df
  have hmap : (clean_data df).map (fun r => r.id) =
      (dropDuplicates df).map (fun r => r.id) := by
    unfold clean_data
    rw [List.map_map]
    rfl
  refine ⟨hmap, ?_⟩
  rw [hmap]
  exact (dropDuplicatesAux_sublist df []).map (fun r => r.id)

/-- C6, counterexample: the category aggregate rows come out sorted
alphabetically by category, so for records whose categories first appear in
the order Zebra, Alpha the aggregate rows are [Alpha, Zebra], not the claimed
discovery order [Zebra, Alpha]. -/
theorem categories_sorted_not_discovery_order :
    (create_categories_data [procRec "Zebra" 1, procRec "Alpha" 2]).map
        (fun row => row.category) = ["Alpha", "Zebra"] ∧
    (["Alpha", "Zebra"] : List String) ≠ ["Zebra", "Alpha"] := by
  exact ⟨by decide, by decide⟩

/-- C2, counterexample: the extractor's whole body sits in one try/except,
so on a page whose title is present but whose price text fails to parse, the
whole record is dropped (the empty record is returned) even though price is
an optional field with documented default — refuting the claim that only a
missing required identity field drops a record. -/
theorem scrape_book_details_drops_record_on_bad_price :
    scrape_book_details (some badPricePage) "https://site/b.html" = none ∧
    badPricePage.h1 = some "A Light in the Attic" := by
  exact ⟨by decide, by decide⟩

/-- C2, amended: the genuinely guarded fields default independently — an
absent rating element yields rating 0, an absent description block yields
empty text, a breadcrumb with fewer than three entries yields category
Unknown, absent table keys yield empty upc/product_type, tax 0 and 0
reviews, and an availability text without digits yields 0 — and an absent
title drops the record; but a parse failure in a fallible step (such as the
price text) drops the whole record too, because the single try/except spans
the entire extraction. -/
theorem scrape_book_details_guarded_defaults :
    (∀ (t pv av u : String) (q : ℚ), clean_price (strTrim pv) = some q →
      scrape_book_details (some (minimalPage t pv av)) u =
        some (guardedDefaultsBook t av u q)) ∧
    (∀ (p : Page) (u : String), p.h1 = none → scrape_book_details (some p) u = none) := by
  constructor
  · intro t pv av u q hq
    have h1 : digitsToNat ['0'] = 0 := by decide
    have h2 : digitsToNat ['0', '0'] = 0 := by decide
    have htax : clean_price "£0.00" = some 0 := by
      simp [clean_price, parseFloat, parseUnsignedDecimal, listTrim, h1, h2]
    have hrev : parseInt "0" = some 0 := by
      simp [parseInt, listTrim, h1]
    simp [scrape_book_details, minimalPage, guardedDefaultsBook, hq, htax, hrev,
      buildProductInfo, lookupTable]
  · intro p u hp
    simp [scrape_book_details, hp]

/-- C2, witness for the amended theorem: a concrete page with a parsable
price and every guarded field absent yields the record of defaults, and a
concrete page without a title yields the empty record. -/
theorem scrape_book_details_guarded_defaults_witness :
    scrape_book_details
        (some (minimalPage " The Grand Design " "£51" "In stock (22 available)"))
        "https://site/b.html" =
      some (guardedDefaultsBook " The Grand Design " "In stock (22 available)"
        "https://site/b.html" ((51 : Nat) : ℚ)) ∧
    scrape_book_details (some noTitlePage) "https://site/b.html" = none :=
  ⟨scrape_book_details_guarded_defaults.1 " The Grand Design " "£51"
      "In stock (22 available)" "https://site/b.html" ((51 : Nat) : ℚ) rfl,
   scrape_book_details_guarded_defaults.2 noTitlePage "https://site/b.html" rfl⟩

/-- C7: for every processed book table and the category aggregate table built
from it, the sum of total_books over all aggregate rows equals the number of
processed records; the category column of the aggregate has no duplicate and
holds exactly the category values occurring in the processed records; and in
every aggregate row min_price ≤ avg_price ≤ max_price. -/
theorem create_categories_invariants :
    ∀ df : List ProcessedRecord,
      ((create_categories_data df).map (fun row => row.total_books)).sum = df.length ∧
      ((create_categories_data df).map (fun row => row.category)).Nodup ∧
      (∀ c : String,
        c ∈ (create_categories_data df).map (fun row => row.category) ↔
          c ∈ df.map (fun r => r.category)) ∧
      (∀ row ∈ create_categories_data df,
        row.min_price ≤ row.avg_price ∧ row.avg_price ≤ row.max_price) := by
  intro df
  have hperm : List.Perm
      (((df.map (fun r => r.category)).dedup).insertionSort
        (fun a b => strLe a b = true))
      ((df.map (fun r => r.category)).dedup) :=
    List.perm_insertionSort _ _
  have hmapcat : (create_categories_data df).map (fun row => row.category) =
      ((df.map (fun r => r.category)).dedup).insertionSort
        (fun a b => strLe a b = true) := by
    unfold create_categories_data
    rw [List.map_map]
    exact List.map_id _
  refine ⟨?_, ?_, ?_, ?_⟩
  · unfold create_categories_data
    rw [List.map_map]
    have hf : ((fun row => row.total_books) ∘ categoryRow df) =
        fun c => List.count c (df.map fun r => r.category) := by
      funext c
      show (df.filter (fun r => r.category == c)).length = _
      rw [List.count_eq_countP, List.countP_map, ← List.countP_eq_length_filter]
      rfl
    rw [hf, (hperm.map (fun c => List.count c (df.map fun r => r.category))).sum_eq,
      List.sum_map_count_dedup_eq_length, List.length_map]
  · rw [hmapcat]
    exact hperm.nodup_iff.mpr (List.nodup_dedup _)
  · intro c
    rw [hmapcat, hperm.mem_iff, List.mem_dedup]
  · intro row hrow
    unfold create_categories_data at hrow
    obtain ⟨c, hc, rfl⟩ := List.mem_map.mp hrow
    have hcmem : c ∈ df.map (fun r => r.category) :=
      List.mem_dedup.mp (hperm.mem_iff.mp hc)
    obtain ⟨r, hr, hrc⟩ := List.mem_map.mp hcmem
    have hfil : r ∈ df.filter (fun x => x.category == c) := by
      rw [List.mem_filter]
      exact ⟨hr, by simp [hrc]⟩
    have hne : (df.filter (fun x => x.category == c)).map (fun x => x.price) ≠ [] := by
      intro hemp
      rw [List.map_eq_nil_iff] at hemp
      rw [hemp] at hfil
      exact absurd hfil (List.not_mem_nil r)
    have hb := qListMean_bounds _ hne
    exact ⟨roundTo2_mono hb.1, roundTo2_mono hb.2⟩

/-- C7, witness: on a concrete two-record table the aggregate row counts sum
to the record count, and the Fiction row has min_price ≤ avg_price ≤
max_price. -/
theorem create_categories_invariants_witness :
    ((create_categories_data [procRec "Fiction" 1, procRec "Travel" 2]).map
        (fun row => row.total_books)).sum = 2 ∧
    ((categoryRow [procRec "Fiction" 1, procRec "Travel" 2] "Fiction").min_price ≤
        (categoryRow [procRec "Fiction" 1, procRec "Travel" 2] "Fiction").avg_price ∧
      (categoryRow [procRec "Fiction" 1, procRec "Travel" 2] "Fiction").avg_price ≤
        (categoryRow [procRec "Fiction" 1, procRec "Travel" 2] "Fiction").max_price) :=
  ⟨(create_categories_invariants [procRec "Fiction" 1, procRec "Travel" 2]).1,
   (create_categories_invariants [procRec "Fiction" 1, procRec "Travel" 2]).2.2.2
     (categoryRow [procRec "Fiction" 1, procRec "Travel" 2] "Fiction")
     (List.mem_map_of_mem (categoryRow [procRec "Fiction" 1, procRec "Travel" 2])
       (by decide))⟩

/-- C6, amended: in the category aggregate table, rows appear sorted in
ascending code-point order of the category value (the pandas `groupby`
default `sort=True`), not in discovery order. -/
theorem create_categories_rows_sorted :
    ∀ df : List ProcessedRecord,
      ((create_categories_data df).map (fun row => row.category)).Sorted
        (fun a b => strLe a b = true) := by
  intro df
  haveI htot : IsTotal String (fun a b => strLe a b = true) :=
    ⟨fun a b => listCharLe_total a.toList b.toList⟩
  haveI htrans : IsTrans String (fun a b => strLe a b = true) :=
    ⟨fun a b c => listCharLe_trans a.toList b.toList c.toList⟩
  have hmap : (create_categories_data df).map (fun row => row.category) =
      ((df.map (fun r => r.category)).dedup).insertionSort
        (fun a b => strLe a b = true) := by
    unfold create_categories_data
    rw [List.map_map]
    exact List.map_id _
  rw [hmap]
  exact List.sorted_insertionSort _ _

end BooksApi
